import Mathlib

/-!
Shallow embedding of the BingoBot event/submission engine (src/bingobot.py).

The SQLite tables become lists of records; each `BingoDB` method becomes a
pure function on a `DB` record. Handlers that also talk to the chat platform
return, besides the new `DB`, a trace of outbound side effects (`Action`),
in the order the source performs them. Channel sends themselves are
transport; the trace records that the source reached the call site.
Timestamps are modelled as integers (absolute UTC instants).
-/

namespace BingoBot

/-- Event lifecycle status column of the bingos table. -/
inductive Status
  | setup
  | signup_open
  | signup_closed
  | running
  | ended
deriving DecidableEq, Repr

/-- Submission status column. -/
inductive SubStatus
  | pending
  | approved
  | rejected
deriving DecidableEq, Repr

/-- Submission kind column. -/
inductive Kind
  | progress
  | full_tile
deriving DecidableEq, Repr

/-- approvals_mode column: none | admin | nonteammate (nonteammate reserved). -/
inductive ApprovalsMode
  | none
  | admin
  | nonteammate
deriving DecidableEq, Repr

/-- show_board_when column: signup_created | signups_close | bingo_start. -/
inductive ShowBoardWhen
  | signup_created
  | signups_close
  | bingo_start
deriving DecidableEq, Repr

/-- Row of the guild_settings table. -/
structure GuildSettings where
  guildId : Nat
  signupChannelId : Nat
  submissionsChannelId : Nat
  announcementsChannelId : Nat
  boardChannelId : Nat
deriving DecidableEq, Repr

/-- Row of the bingos table (columns the engine reads or writes). -/
structure Bingo where
  id : Nat
  guildId : Nat
  teamSize : Int
  startUtc : Int
  endUtc : Option Int
  signupCloseUtc : Int
  showBoardWhen : ShowBoardWhen
  approvalsMode : ApprovalsMode
  approvalsRequired : Nat
  status : Status
  signupMessageId : Option Nat
deriving DecidableEq, Repr

/-- Row of the teams table; primary key is (bingoId, userId). -/
structure TeamRow where
  bingoId : Nat
  teamNumber : Nat
  userId : Nat
deriving DecidableEq, Repr

/-- Row of the submissions table. -/
structure Submission where
  id : Nat
  bingoId : Nat
  userId : Nat
  kind : Kind
  messageId : Nat
  status : SubStatus
  approvalsRequired : Nat
deriving DecidableEq, Repr

/-- The persistent store: one list per table. signups rows are
(bingo_id, user_id) pairs, approvals rows are (submission_id, user_id)
pairs; both have those pairs as primary key. -/
structure DB where
  guildSettings : List GuildSettings
  bingos : List Bingo
  signups : List (Nat × Nat)
  teams : List TeamRow
  submissions : List Submission
  approvals : List (Nat × Nat)
deriving DecidableEq, Repr

/-- Outbound side effects, recorded in the order the source performs them. -/
inductive Action
  | setStatus (bingoId : Nat) (s : Status)
  | clearTeams (bingoId : Nat)
  | setTeam (bingoId userId teamNumber : Nat)
  | announceTeams (bingoId : Nat)
  | revealBoard (bingoId : Nat)
  | updateLeaderboard (bingoId : Nat)
  | announceStart (bingoId : Nat)
  | announceApproval (messageId : Nat)
  | notifyPending (bingoId : Nat)
  | addSignup (bingoId userId : Nat)
  | removeSignup (bingoId userId : Nat)
  | addApproval (subId userId : Nat)
  | setSubmissionStatus (subId : Nat) (s : SubStatus)
deriving DecidableEq, Repr

/-- BingoDB.get_guild_settings: SELECT by guild_id. -/
def get_guild_settings (db : DB) (guildId : Nat) : Option GuildSettings :=
  db.guildSettings.find? (fun g => g.guildId == guildId)

/-- Statuses in the WHERE clause of get_active_bingo (the non-terminal set). -/
def isActive (s : Status) : Bool :=
  s == Status.setup || s == Status.signup_open || s == Status.signup_closed ||
    s == Status.running

/-- BingoDB.get_active_bingo: latest (greatest id) non-terminal event of the
guild; ORDER BY id DESC LIMIT 1 picks the row with the maximal id. -/
def get_active_bingo (db : DB) (guildId : Nat) : Option Bingo :=
  (db.bingos.filter (fun b => b.guildId == guildId && isActive b.status)).foldl
    (fun acc b =>
      match acc with
      | Option.none => some b
      | some a => if a.id < b.id then some b else acc)
    Option.none

/-- BingoDB.set_status: UPDATE bingos SET status=? WHERE id=?. -/
def set_status (db : DB) (bingoId : Nat) (st : Status) : DB :=
  { db with
    bingos := db.bingos.map
      (fun b => if b.id == bingoId then { b with status := st } else b) }

/-- BingoDB.add_signup: INSERT OR IGNORE (primary key (bingo_id, user_id)). -/
def add_signup (db : DB) (bingoId userId : Nat) : DB :=
  if db.signups.any (fun p => p.1 == bingoId && p.2 == userId) then db
  else { db with signups := db.signups ++ [(bingoId, userId)] }

/-- BingoDB.remove_signup: DELETE FROM signups WHERE bingo_id=? AND user_id=?. -/
def remove_signup (db : DB) (bingoId userId : Nat) : DB :=
  { db with
    signups := db.signups.filter (fun p => !(p.1 == bingoId && p.2 == userId)) }

/-- BingoDB.list_signups: SELECT user_id FROM signups WHERE bingo_id=?. -/
def list_signups (db : DB) (bingoId : Nat) : List Nat :=
  (db.signups.filter (fun p => p.1 == bingoId)).map Prod.snd

/-- BingoDB.clear_teams: DELETE FROM teams WHERE bingo_id=?. -/
def clear_teams (db : DB) (bingoId : Nat) : DB :=
  { db with teams := db.teams.filter (fun t => !(t.bingoId == bingoId)) }

/-- BingoDB.set_team: INSERT ... ON CONFLICT(bingo_id, user_id) DO UPDATE
SET team_number. -/
def set_team (db : DB) (bingoId userId teamNumber : Nat) : DB :=
  if db.teams.any (fun t => t.bingoId == bingoId && t.userId == userId) then
    { db with
      teams := db.teams.map
        (fun t =>
          if t.bingoId == bingoId && t.userId == userId then
            { t with teamNumber := teamNumber }
          else t) }
  else { db with teams := db.teams ++ [⟨bingoId, teamNumber, userId⟩] }

/-- BingoDB.create_submission: INSERT INTO submissions; the caller passes the
record, whose id models the AUTOINCREMENT rowid the source returns. -/
def create_submission (db : DB) (s : Submission) : DB :=
  { db with submissions := db.submissions ++ [s] }

/-- BingoDB.get_submission_by_message: SELECT * FROM submissions WHERE
message_id=?. -/
def get_submission_by_message (db : DB) (messageId : Nat) : Option Submission :=
  db.submissions.find? (fun s => s.messageId == messageId)

/-- BingoDB.add_approval: INSERT OR IGNORE (primary key
(submission_id, user_id)). -/
def add_approval (db : DB) (submissionId userId : Nat) : DB :=
  if db.approvals.any (fun a => a.1 == submissionId && a.2 == userId) then db
  else { db with approvals := db.approvals ++ [(submissionId, userId)] }

/-- BingoDB.count_approvals: SELECT COUNT(*) FROM approvals WHERE
submission_id=?. -/
def count_approvals (db : DB) (submissionId : Nat) : Nat :=
  (db.approvals.filter (fun a => a.1 == submissionId)).length

/-- BingoDB.set_submission_status: UPDATE submissions SET status=? WHERE id=?. -/
def set_submission_status (db : DB) (submissionId : Nat) (st : SubStatus) : DB :=
  { db with
    submissions := db.submissions.map
      (fun s => if s.id == submissionId then { s with status := st } else s) }

/-- Team numbers of the joined rows of BingoDB.leaderboard_counts:
submissions JOIN teams ON t.bingo_id = s.bingo_id AND t.user_id = s.user_id
WHERE s.bingo_id=? AND s.status=approved AND s.kind=full_tile. One list
element per joined row. -/
def joined_team_numbers (db : DB) (bingoId : Nat) : List Nat :=
  (db.submissions.filter
      (fun s =>
        s.bingoId == bingoId && s.status == SubStatus.approved &&
          s.kind == Kind.full_tile)).flatMap
    (fun s =>
      (db.teams.filter (fun t => t.bingoId == bingoId && t.userId == s.userId)).map
        (fun t => t.teamNumber))

/-- The ORDER BY relation of leaderboard_counts: cnt DESC, team_number ASC. -/
def lbRel (a b : Nat × Nat) : Prop :=
  b.2 < a.2 ∨ (a.2 = b.2 ∧ a.1 ≤ b.1)

instance : DecidableRel lbRel := fun a b => by
  unfold lbRel; infer_instance

instance : IsTotal (Nat × Nat) lbRel :=
  ⟨fun a b => by unfold lbRel; omega⟩

instance : IsTrans (Nat × Nat) lbRel :=
  ⟨fun a b c h₁ h₂ => by unfold lbRel at *; omega⟩

/-- BingoDB.leaderboard_counts: GROUP BY team_number with COUNT, then
ORDER BY cnt DESC, team_number ASC. The grouping keys are the distinct
joined team numbers; the sort realises the ORDER BY (the relation is total
and antisymmetric on rows with distinct team numbers, so any correct sort
yields the SQL result). -/
def leaderboard_counts (db : DB) (bingoId : Nat) : List (Nat × Nat) :=
  let rows := joined_team_numbers db bingoId
  List.insertionSort lbRel (rows.dedup.map (fun tn => (tn, rows.count tn)))

/-- The team_size >= 2 loop of handle_bingo_state: team_num starts at 1 and is
incremented after every chunk of team_size members ((i + 1) % team_size == 0).
Produces the (user_id, team_number) pairs in loop order. -/
def assignLoop (size teamNum i : Nat) : List Nat → List (Nat × Nat)
  | [] => []
  | uid :: rest =>
      (uid, teamNum) ::
        assignLoop size (if (i + 1) % size == 0 then teamNum + 1 else teamNum)
          (i + 1) rest

/-- The team_size == 1 loop: enumerate(signups, start=1), one solo team per
participant. -/
def soloTeams (idx : Nat) : List Nat → List (Nat × Nat)
  | [] => []
  | uid :: rest => (uid, idx) :: soloTeams (idx + 1) rest

/-- The team-creation step of handle_bingo_state on the already shuffled
signup list: team_size <= 0 puts everyone in team 1, team_size == 1 makes
solo teams numbered from 1, otherwise consecutive chunks of team_size.
Returns the (user_id, team_number) pairs in the order the source calls
db.set_team. -/
def assignTeams (shuffled : List Nat) (team_size : Int) : List (Nat × Nat) :=
  if team_size ≤ 0 then shuffled.map (fun uid => (uid, 1))
  else if team_size = 1 then soloTeams 1 shuffled
  else assignLoop team_size.toNat 1 0 shuffled

/-- handle_bingo_state: one scan of one event against the current time,
acting on the status snapshot in the row it was handed. bot.get_guild is
transport; guildFound models its success. random.shuffle is modelled by the
shuffle parameter. The guard of each branch reads the snapshot status, and
the status write is the first store action of each transition. -/
def handle_bingo_state (db : DB) (bingo : Bingo) (now : Int)
    (shuffle : List Nat → List Nat) (guildFound : Bool) : DB × List Action :=
  if !guildFound then (db, [])
  else
    match get_guild_settings db bingo.guildId with
    | Option.none => (db, [])
    | some _ =>
      let status := bingo.status
      let step1 : DB × List Action :=
        if status == Status.signup_open && bingo.signupCloseUtc ≤ now then
          let dbA := set_status db bingo.id Status.signup_closed
          let shuffled := shuffle (list_signups dbA bingo.id)
          let dbB := clear_teams dbA bingo.id
          let assigned := assignTeams shuffled bingo.teamSize
          let dbC := assigned.foldl
            (fun d p => set_team d bingo.id p.1 p.2) dbB
          (dbC,
            [Action.setStatus bingo.id Status.signup_closed,
             Action.clearTeams bingo.id] ++
              assigned.map (fun p => Action.setTeam bingo.id p.1 p.2) ++
              [Action.announceTeams bingo.id] ++
              (if bingo.showBoardWhen == ShowBoardWhen.signups_close then
                [Action.revealBoard bingo.id]
              else []) ++
              [Action.updateLeaderboard bingo.id])
        else (db, [])
      if (status == Status.signup_open || status == Status.signup_closed) &&
          bingo.startUtc ≤ now then
        (set_status step1.1 bingo.id Status.running,
          step1.2 ++
            [Action.setStatus bingo.id Status.running,
             Action.announceStart bingo.id] ++
            (if bingo.showBoardWhen == ShowBoardWhen.bingo_start then
              [Action.revealBoard bingo.id]
            else []))
      else step1

/-- Permission bits of a resolved guild member; Option.none models a failed
member fetch. -/
structure Member where
  manage_guild : Bool
  administrator : Bool
deriving DecidableEq, Repr

/-- member and (member.guild_permissions.manage_guild or
member.guild_permissions.administrator). -/
def hasCap (member : Option Member) : Bool :=
  match member with
  | some m => m.manage_guild || m.administrator
  | Option.none => false

/-- The allowed flag computed in on_raw_reaction_add: admin mode requires the
capability; the reserved nonteammate mode is treated identically (admin-only
for now, per the source comment); any other mode leaves allowed = False. -/
def allowed_approver (mode : ApprovalsMode) (member : Option Member) : Bool :=
  match mode with
  | ApprovalsMode.admin => hasCap member
  | ApprovalsMode.nonteammate => hasCap member
  | ApprovalsMode.none => false

/-- Reaction emoji, as compared against the three emoji constants. -/
inductive Emoji
  | signup
  | unsign
  | approve
  | other
deriving DecidableEq, Repr

/-- Body of on_raw_reaction_add from the point where the active bingo row has
been fetched (the preceding guards are transport lookups that perform no
writes). After the quorum transition the source refetches the active row
only to refresh the leaderboard; the refetched row has the same id because
nothing in this handler writes the bingos table. -/
def reaction_add_core (db : DB) (bingo : Bingo) (messageId userId : Nat)
    (emoji : Emoji) (member : Option Member) : DB × List Action :=
  if bingo.signupMessageId == some messageId then
    match emoji with
    | Emoji.signup =>
        (add_signup db bingo.id userId, [Action.addSignup bingo.id userId])
    | Emoji.unsign =>
        (remove_signup db bingo.id userId, [Action.removeSignup bingo.id userId])
    | _ => (db, [])
  else if emoji != Emoji.approve then (db, [])
  else
    match get_submission_by_message db messageId with
    | Option.none => (db, [])
    | some sub =>
      if sub.status != SubStatus.pending then (db, [])
      else if !allowed_approver bingo.approvalsMode member then (db, [])
      else
        let db1 := add_approval db sub.id userId
        let current := count_approvals db1 sub.id
        let needed := sub.approvalsRequired
        if current ≥ needed then
          (set_submission_status db1 sub.id SubStatus.approved,
            [Action.addApproval sub.id userId,
             Action.setSubmissionStatus sub.id SubStatus.approved,
             Action.announceApproval sub.messageId,
             Action.updateLeaderboard bingo.id])
        else (db1, [Action.addApproval sub.id userId])

/-- on_raw_reaction_add: fetch guild settings and the active bingo, then run
the core body. guildFound models bot.get_guild succeeding. -/
def on_raw_reaction_add (db : DB) (guildId messageId userId : Nat)
    (emoji : Emoji) (member : Option Member) (guildFound : Bool) :
    DB × List Action :=
  if !guildFound then (db, [])
  else
    match get_guild_settings db guildId with
    | Option.none => (db, [])
    | some _ =>
      match get_active_bingo db guildId with
      | Option.none => (db, [])
      | some bingo => reaction_add_core db bingo messageId userId emoji member

/-- on_raw_reaction_remove: removing the signup emoji from the signup post
removes the signup; everything else is ignored. This handler fetches no
guild settings. -/
def on_raw_reaction_remove (db : DB) (guildId messageId userId : Nat)
    (emoji : Emoji) (guildFound : Bool) : DB × List Action :=
  if !guildFound then (db, [])
  else
    match get_active_bingo db guildId with
    | Option.none => (db, [])
    | some bingo =>
      match bingo.signupMessageId with
      | Option.none => (db, [])
      | some sid =>
        if sid == messageId && emoji == Emoji.signup then
          (remove_signup db bingo.id userId,
            [Action.removeSignup bingo.id userId])
        else (db, [])

/-- The persistence core of handle_submission (after the transport checks):
policy none stores the submission approved and refreshes the leaderboard at
once; otherwise it is stored pending (after an awaiting-approval notice)
with approvals_required copied from the event row. newSubId models the
AUTOINCREMENT id of the inserted row. -/
def handle_submission (db : DB) (bingo : Bingo) (userId : Nat) (kind : Kind)
    (messageId newSubId : Nat) : DB × List Action :=
  let status :=
    if bingo.approvalsMode = ApprovalsMode.none then SubStatus.approved
    else SubStatus.pending
  let approvals_required := bingo.approvalsRequired
  let db1 := create_submission db
    { id := newSubId, bingoId := bingo.id, userId := userId, kind := kind,
      messageId := messageId, status := status,
      approvalsRequired := approvals_required }
  if status = SubStatus.approved then
    (db1, [Action.updateLeaderboard bingo.id])
  else (db1, [Action.notifyPending bingo.id])

/-- Status of the submission row with the given id, if any. -/
def subStatus (db : DB) (submissionId : Nat) : Option SubStatus :=
  (db.submissions.find? (fun s => s.id == submissionId)).map Submission.status

/-- Status of the bingo row with the given id, if any. -/
def bingoStatus (db : DB) (bingoId : Nat) : Option Status :=
  (db.bingos.find? (fun b => b.id == bingoId)).map Bingo.status

/-- Approver user ids recorded for a submission, in insertion order. -/
def approversOf (db : DB) (submissionId : Nat) : List Nat :=
  (db.approvals.filter (fun a => a.1 == submissionId)).map Prod.snd

/-- Number of recorded approvers of a submission. -/
def numApprovers (db : DB) (submissionId : Nat) : Nat :=
  (approversOf db submissionId).length

/-- ceil(N / s): the number of teams the chunking branch produces. -/
def numTeams (N s : Nat) : Nat := (N + s - 1) / s

/-- Number of members placed in team t by an assignment. -/
def teamCount (a : List (Nat × Nat)) (t : Nat) : Nat :=
  (a.filter (fun p => p.2 == t)).length

/-- Store actions that belong exclusively to the signup_open to signup_closed
transition of handle_bingo_state. -/
def isCloseAction : Action → Bool
  | Action.setStatus _ s => s == Status.signup_closed
  | Action.clearTeams _ => true
  | Action.setTeam _ _ _ => true
  | Action.announceTeams _ => true
  | Action.updateLeaderboard _ => true
  | _ => false

/-- Repeated scheduler passes over one event: each pass rereads the committed
row (as bingo_tick does through get_due_actions) and hands it to
handle_bingo_state with the wall-clock time of that pass. -/
def scanIter (db : DB) (bingoId : Nat) (steps : List Int)
    (shuffle : List Nat → List Nat) (guildFound : Bool) : DB :=
  steps.foldl
    (fun d now =>
      match d.bingos.find? (fun x => x.id == bingoId) with
      | some row => (handle_bingo_state d row now shuffle guildFound).1
      | Option.none => d)
    db

/-- Concrete pending submission used to exercise the approval workflow. -/
def subW1 : Submission :=
  { id := 7, bingoId := 1, userId := 11, kind := Kind.full_tile,
    messageId := 300, status := SubStatus.pending, approvalsRequired := 1 }

/-- Concrete running event with admin approval policy. -/
def bingoW1 : Bingo :=
  { id := 1, guildId := 5, teamSize := 2, startUtc := 100,
    endUtc := Option.none, signupCloseUtc := 50,
    showBoardWhen := ShowBoardWhen.bingo_start,
    approvalsMode := ApprovalsMode.admin, approvalsRequired := 1,
    status := Status.running, signupMessageId := some 99 }

/-- Concrete store holding subW1 under bingoW1. -/
def dbW1 : DB :=
  { guildSettings := [⟨5, 1, 2, 3, 4⟩], bingos := [bingoW1], signups := [],
    teams := [], submissions := [subW1], approvals := [] }

/-- Concrete event sitting past its signup deadline. -/
def bingoW2 : Bingo :=
  { id := 2, guildId := 6, teamSize := 2, startUtc := 100,
    endUtc := Option.none, signupCloseUtc := 10,
    showBoardWhen := ShowBoardWhen.signups_close,
    approvalsMode := ApprovalsMode.none, approvalsRequired := 0,
    status := Status.signup_open, signupMessageId := some 50 }

/-- Concrete store holding bingoW2 with two signups. -/
def dbW2 : DB :=
  { guildSettings := [⟨6, 1, 2, 3, 4⟩], bingos := [bingoW2],
    signups := [(2, 21), (2, 22)], teams := [], submissions := [],
    approvals := [] }

/-- Concrete already approved submission. -/
def subW3 : Submission :=
  { id := 8, bingoId := 1, userId := 12, kind := Kind.full_tile,
    messageId := 301, status := SubStatus.approved, approvalsRequired := 1 }

/-- Concrete store holding the approved subW3. -/
def dbW3 : DB :=
  { guildSettings := [], bingos := [], signups := [], teams := [],
    submissions := [subW3], approvals := [] }

/-- Concrete event whose signups are already closed. -/
def bingoW10 : Bingo :=
  { id := 3, guildId := 9, teamSize := 0, startUtc := 100,
    endUtc := Option.none, signupCloseUtc := 10,
    showBoardWhen := ShowBoardWhen.signup_created,
    approvalsMode := ApprovalsMode.none, approvalsRequired := 0,
    status := Status.signup_closed, signupMessageId := some 60 }

/-- Concrete store holding bingoW10 with one signup and one team row. -/
def dbW10 : DB :=
  { guildSettings := [⟨9, 1, 2, 3, 4⟩], bingos := [bingoW10],
    signups := [(3, 31)], teams := [⟨3, 1, 31⟩], submissions := [],
    approvals := [] }

/-! ## Team assignment lemmas -/

theorem soloTeams_map_fst : ∀ (l : List Nat) (i : Nat),
    (soloTeams i l).map Prod.fst = l
  | [], _ => rfl
  | _ :: rest, i => by
      simp [soloTeams, soloTeams_map_fst rest (i + 1)]

theorem soloTeams_map_snd : ∀ (l : List Nat) (i : Nat),
    (soloTeams i l).map Prod.snd = List.range' i l.length
  | [], _ => by simp [soloTeams]
  | _ :: rest, i => by
      simp [soloTeams, List.range'_succ, soloTeams_map_snd rest (i + 1)]

theorem assignLoop_eq_enum (s : Nat) (hs : 0 < s) :
    ∀ (l : List Nat) (i : Nat),
      assignLoop s (i / s + 1) i l =
        (l.enumFrom i).map (fun p => (p.2, p.1 / s + 1))
  | [], _ => rfl
  | uid :: rest, i => by
      have hstep : (if (i + 1) % s == 0 then i / s + 1 + 1 else i / s + 1)
          = (i + 1) / s + 1 := by
        by_cases hm : (i + 1) % s = 0
        · have hdvd : s ∣ i + 1 := Nat.dvd_of_mod_eq_zero hm
          simp [hm, Nat.succ_div, hdvd]
        · have hdvd : ¬ s ∣ i + 1 := fun hd => hm (Nat.mod_eq_zero_of_dvd hd)
          simp [hm, Nat.succ_div, hdvd]
      simp only [assignLoop, List.enumFrom, List.map_cons]
      congr 1
      rw [hstep]
      exact assignLoop_eq_enum s hs rest (i + 1)

theorem assignTeams_ge_two (l : List Nat) (s : Nat) (hs : 2 ≤ s) :
    assignTeams l (s : Int) =
      (l.enumFrom 0).map (fun p => (p.2, p.1 / s + 1)) := by
  have h0 : ¬ ((s : Int) ≤ 0) := by omega
  have h1 : ¬ ((s : Int) = 1) := by omega
  unfold assignTeams
  rw [if_neg h0, if_neg h1, Int.toNat_natCast]
  have := assignLoop_eq_enum s (by omega) l 0
  simpa using this

/-- Claim C5: team_size = 0 puts every participant in the single team 1;
team_size = 1 produces one team per participant with team numbers 1..N in
shuffle order. -/
theorem teamAssign_degenerate_sizes (l : List Nat) :
    assignTeams l 0 = l.map (fun uid => (uid, 1))
    ∧ (assignTeams l 1).map Prod.fst = l
    ∧ (assignTeams l 1).map Prod.snd = List.range' 1 l.length := by
  refine ⟨by simp [assignTeams], ?_, ?_⟩
  · simp [assignTeams, soloTeams_map_fst]
  · simp [assignTeams, soloTeams_map_snd]

theorem getElem?_enumFrom {α : Type} : ∀ (l : List α) (n k : Nat),
    (l.enumFrom n)[k]? = l[k]?.map (fun a => (n + k, a))
  | [], _, _ => by simp [List.enumFrom]
  | a :: rest, n, 0 => by simp [List.enumFrom]
  | a :: rest, n, k + 1 => by
      have ih := getElem?_enumFrom rest (n + 1) k
      simp only [List.enumFrom, List.getElem?_cons_succ]
      rw [ih]
      have : n + 1 + k = n + (k + 1) := by omega
      rw [this]

theorem length_filter_enumFrom {α : Type} (p : Nat → Bool) :
    ∀ (l : List α) (n : Nat),
      ((l.enumFrom n).filter (fun q => p q.1)).length
        = ((List.range' n l.length).filter p).length
  | [], _ => rfl
  | a :: rest, n => by
      have ih := length_filter_enumFrom p rest (n + 1)
      simp only [List.enumFrom, List.length_cons, List.range'_succ,
        List.filter_cons]
      cases hp : p n <;> simp [ih]

theorem length_filter_enumFrom_snd {α : Type} (p : α → Bool) :
    ∀ (l : List α) (n : Nat),
      ((l.enumFrom n).filter (fun q => p q.2)).length = (l.filter p).length
  | [], _ => rfl
  | a :: rest, n => by
      have ih := length_filter_enumFrom_snd p rest (n + 1)
      simp only [List.enumFrom, List.filter_cons]
      cases hp : p a <;> simp [ih]

theorem count_range_div (s : Nat) (hs : 0 < s) (q : Nat) :
    ∀ N, ((List.range N).filter (fun k => k / s == q)).length
      = min (s * (q + 1)) N - s * q
  | 0 => by simp
  | N + 1 => by
      have ih := count_range_div s hs q N
      rw [List.range_succ, List.filter_append, List.length_append, ih]
      have hsucc : s * (q + 1) = s * q + s := Nat.mul_succ s q
      have hq : q * s = s * q := Nat.mul_comm q s
      have hq1 : (q + 1) * s = s * (q + 1) := Nat.mul_comm (q + 1) s
      have hcmp : N < s * q ∨ (s * q ≤ N ∧ N < s * (q + 1)) ∨ s * (q + 1) ≤ N := by
        omega
      rcases hcmp with h | ⟨h1, h2⟩ | h
      · have hne : N / s ≠ q := by
          have : N / s < q := (Nat.div_lt_iff_lt_mul hs).2 (by omega)
          omega
        have hlen : (List.filter (fun k => k / s == q) [N]).length = 0 := by
          simp [hne]
        rw [hlen]
        omega
      · have heq : N / s = q := Nat.div_eq_of_lt_le (by omega) (by omega)
        have hlen : (List.filter (fun k => k / s == q) [N]).length = 1 := by
          simp [heq]
        rw [hlen]
        omega
      · have hne : N / s ≠ q := by
          have : q + 1 ≤ N / s := (Nat.le_div_iff_mul_le hs).2 (by omega)
          omega
        have hlen : (List.filter (fun k => k / s == q) [N]).length = 0 := by
          simp [hne]
        rw [hlen]
        omega

theorem teamCount_assignTeams (l : List Nat) (s : Nat) (hs : 2 ≤ s) (t : Nat) :
    teamCount (assignTeams l (s : Int)) t
      = ((List.range l.length).filter (fun k => k / s + 1 == t)).length := by
  rw [assignTeams_ge_two l s hs]
  unfold teamCount
  rw [List.filter_map, List.length_map]
  have h1 := length_filter_enumFrom (fun k => k / s + 1 == t) l 0
  have h2 : ((fun p : Nat × Nat => p.2 == t) ∘
      (fun p : Nat × Nat => (p.2, p.1 / s + 1)))
      = (fun q : Nat × Nat => (fun k => k / s + 1 == t) q.1) := rfl
  rw [h2, h1, ← List.range_eq_range']

theorem teamCount_assignTeams_succ (l : List Nat) (s : Nat) (hs : 2 ≤ s)
    (t' : Nat) :
    teamCount (assignTeams l (s : Int)) (t' + 1)
      = min (s * (t' + 1)) l.length - s * t' := by
  rw [teamCount_assignTeams l s hs (t' + 1)]
  have hconv : (List.range l.length).filter (fun k => k / s + 1 == t' + 1)
      = (List.range l.length).filter (fun k => k / s == t') := by
    apply List.filter_congr
    intro x _
    simp
  rw [hconv, count_range_div s (by omega) t']

/-- Claim C4: for team_size at least 2 the chunking branch maps the
participant at shuffled index k to team k / team_size + 1, keeps every
participant exactly once, produces the contiguous team numbers
1..ceil(N / team_size), gives every non-final team exactly team_size
members, and leaves the remainder in the final team. -/
theorem teamAssign_chunking (l : List Nat) (s : Nat) (hs : 2 ≤ s)
    (hnd : l.Nodup) :
    (assignTeams l (s : Int)).map Prod.fst = l
    ∧ (∀ k : Nat, (assignTeams l (s : Int))[k]?
        = l[k]?.map (fun uid => (uid, k / s + 1)))
    ∧ (∀ u ∈ l,
        ((assignTeams l (s : Int)).filter (fun p => p.1 == u)).length = 1)
    ∧ (∀ t : Nat, 0 < teamCount (assignTeams l (s : Int)) t ↔
        1 ≤ t ∧ t ≤ numTeams l.length s)
    ∧ (∀ t : Nat, 1 ≤ t → t < numTeams l.length s →
        teamCount (assignTeams l (s : Int)) t = s)
    ∧ (0 < l.length →
        teamCount (assignTeams l (s : Int)) (numTeams l.length s)
          = l.length - (numTeams l.length s - 1) * s) := by
  have hdm := Nat.div_add_mod (l.length + s - 1) s
  have hmod : (l.length + s - 1) % s < s := Nat.mod_lt _ (by omega)
  have hd : numTeams l.length s = (l.length + s - 1) / s := rfl
  refine ⟨?_, ?_, ?_, ?_, ?_, ?_⟩
  · rw [assignTeams_ge_two l s hs, List.map_map]
    exact List.enumFrom_map_snd 0 l
  · intro k
    rw [assignTeams_ge_two l s hs, List.getElem?_map, getElem?_enumFrom]
    cases hk : l[k]? <;> simp
  · intro u hu
    rw [assignTeams_ge_two l s hs, List.filter_map, List.length_map]
    have h3 := length_filter_enumFrom_snd (fun x => x == u) l 0
    have h4 : l.count u = 1 := List.count_eq_one_of_mem hnd hu
    rw [List.count_eq_countP, List.countP_eq_length_filter] at h4
    simpa [Function.comp] using h3.trans h4
  · intro t
    cases t with
    | zero =>
        rw [teamCount_assignTeams l s hs 0]
        have hfe : (List.range l.length).filter (fun k => k / s + 1 == 0)
            = [] := by
          apply List.filter_eq_nil_iff.2
          intro x _
          simp
        rw [hfe]
        simp [numTeams]
    | succ t' =>
        rw [teamCount_assignTeams_succ l s hs t', hd]
        constructor
        · intro hpos
          refine ⟨by omega, ?_⟩
          by_contra hcon
          have hle : (l.length + s - 1) / s ≤ t' := by omega
          have hmul := Nat.mul_le_mul_left s hle
          omega
        · rintro ⟨-, hle⟩
          have hle2 : t' + 1 ≤ (l.length + s - 1) / s := hle
          have hmul := Nat.mul_le_mul_left s hle2
          have hsucc : s * (t' + 1) = s * t' + s := Nat.mul_succ s t'
          omega
  · intro t h1 hlt
    obtain ⟨t', rfl⟩ : ∃ t'', t = t'' + 1 := ⟨t - 1, by omega⟩
    rw [teamCount_assignTeams_succ l s hs t', hd] at *
    have hle : t' + 2 ≤ (l.length + s - 1) / s := by omega
    have hmul := Nat.mul_le_mul_left s hle
    have hsucc : s * (t' + 1) = s * t' + s := Nat.mul_succ s t'
    have hsucc2 : s * (t' + 2) = s * (t' + 1) + s := Nat.mul_succ s (t' + 1)
    omega
  · intro hN
    have hd1 : 1 ≤ numTeams l.length s := by
      rw [hd]
      by_contra hcon
      have h0 : (l.length + s - 1) / s = 0 := by omega
      rw [h0, Nat.mul_zero] at hdm
      omega
    obtain ⟨d', hdd⟩ : ∃ d'', numTeams l.length s = d'' + 1 :=
      ⟨numTeams l.length s - 1, by omega⟩
    rw [hdd, teamCount_assignTeams_succ l s hs d']
    have hsucc : s * (d' + 1) = s * d' + s := Nat.mul_succ s d'
    have hcomm : d' * s = s * d' := Nat.mul_comm d' s
    rw [hd] at hdd
    rw [hdd] at hdm
    have hNle : l.length ≤ s * (d' + 1) := by omega
    rw [min_eq_right hNle]
    simp only [Nat.add_sub_cancel]
    omega

/-! ## Approval workflow lemmas -/

theorem any_pair_iff_mem (l : List (Nat × Nat)) (x y : Nat) :
    l.any (fun a => a.1 == x && a.2 == y) = true ↔ (x, y) ∈ l := by
  simp only [List.any_eq_true, Bool.and_eq_true, beq_iff_eq]
  constructor
  · rintro ⟨⟨a, b⟩, hm, h1, h2⟩
    subst h1
    subst h2
    exact hm
  · intro h
    exact ⟨(x, y), h, rfl, rfl⟩

theorem mem_approversOf (db : DB) (sid u : Nat) :
    u ∈ approversOf db sid ↔ (sid, u) ∈ db.approvals := by
  simp only [approversOf, List.mem_map, List.mem_filter, beq_iff_eq]
  constructor
  · rintro ⟨⟨a, b⟩, ⟨hm, h1⟩, h2⟩
    subst h1
    subst h2
    exact hm
  · intro h
    exact ⟨(sid, u), ⟨h, rfl⟩, rfl⟩

theorem add_approval_of_mem (db : DB) (sid u : Nat)
    (h : (sid, u) ∈ db.approvals) : add_approval db sid u = db := by
  unfold add_approval
  rw [if_pos ((any_pair_iff_mem _ _ _).2 h)]

theorem add_approval_of_not_mem (db : DB) (sid u : Nat)
    (h : (sid, u) ∉ db.approvals) :
    add_approval db sid u
      = { db with approvals := db.approvals ++ [(sid, u)] } := by
  unfold add_approval
  rw [if_neg (fun hc => h ((any_pair_iff_mem _ _ _).1 hc))]

theorem approversOf_append_self (db : DB) (sid u : Nat) :
    approversOf { db with approvals := db.approvals ++ [(sid, u)] } sid
      = approversOf db sid ++ [u] := by
  simp [approversOf, List.filter_append]

theorem count_approvals_eq_numApprovers (db : DB) (sid : Nat) :
    count_approvals db sid = numApprovers db sid := by
  simp [count_approvals, numApprovers, approversOf]

theorem find?_submissions_map (f : Submission → Submission)
    (hf : ∀ s, (f s).id = s.id) (l : List Submission) (sid : Nat) :
    (l.map f).find? (fun s => s.id == sid)
      = (l.find? (fun s => s.id == sid)).map f := by
  rw [List.find?_map]
  have hp : ((fun s : Submission => s.id == sid) ∘ f)
      = (fun s : Submission => s.id == sid) := by
    funext a
    simp [Function.comp, hf]
  rw [hp]

theorem subStatus_set_submission_status (db : DB) (sub : Submission)
    (st : SubStatus)
    (hfind : db.submissions.find? (fun s => s.id == sub.id) = some sub) :
    subStatus (set_submission_status db sub.id st) sub.id = some st := by
  unfold subStatus set_submission_status
  rw [find?_submissions_map _ (fun s => by by_cases h : s.id == sub.id <;> simp [h]) _ _]
  rw [hfind]
  simp

/-- Claim C1: under an eligibility-granting policy, a pending submission
becomes approved exactly when the number of distinct recorded approvers
reaches its approvals_required; a repeated signal from an already recorded
approver inserts nothing and never grows the approver list, which stays
duplicate free. -/
theorem quorum_distinct_approvers (db : DB) (bingo : Bingo) (sub : Submission)
    (messageId userId : Nat) (member : Option Member)
    (hnotsignup : (bingo.signupMessageId == some messageId) = false)
    (hsub : get_submission_by_message db messageId = some sub)
    (hfind : db.submissions.find? (fun s => s.id == sub.id) = some sub)
    (hpend : sub.status = SubStatus.pending)
    (hallow : allowed_approver bingo.approvalsMode member = true)
    (hnd : (approversOf db sub.id).Nodup) :
    (subStatus
        (reaction_add_core db bingo messageId userId Emoji.approve member).1
        sub.id = some SubStatus.approved
      ↔ sub.approvalsRequired ≤ numApprovers
          (reaction_add_core db bingo messageId userId Emoji.approve member).1
          sub.id)
    ∧ (approversOf
        (reaction_add_core db bingo messageId userId Emoji.approve member).1
        sub.id).Nodup
    ∧ (userId ∈ approversOf db sub.id →
        (reaction_add_core db bingo messageId userId Emoji.approve member).1.approvals
            = db.approvals)
    ∧ (userId ∉ approversOf db sub.id →
        approversOf
          (reaction_add_core db bingo messageId userId Emoji.approve member).1
          sub.id = approversOf db sub.id ++ [userId]) := by
  have hpendStatus : subStatus db sub.id = some SubStatus.pending := by
    unfold subStatus
    rw [hfind]
    simp [hpend]
  unfold reaction_add_core
  rw [hnotsignup, hsub]
  simp only [Bool.false_eq_true, if_false, bne_self_eq_false, hpend, hallow,
    Bool.not_true]
  by_cases hmem : userId ∈ approversOf db sub.id
  · have hdb1 : add_approval db sub.id userId = db :=
      add_approval_of_mem db sub.id userId ((mem_approversOf db sub.id userId).1 hmem)
    rw [hdb1, count_approvals_eq_numApprovers]
    by_cases hq : numApprovers db sub.id ≥ sub.approvalsRequired
    · rw [if_pos hq]
      refine ⟨?_, hnd, fun _ => rfl, fun hn => absurd hmem hn⟩
      have hset := subStatus_set_submission_status db sub SubStatus.approved hfind
      constructor
      · intro _
        exact hq
      · intro _
        exact hset
    · rw [if_neg hq]
      refine ⟨?_, hnd, fun _ => rfl, fun hn => absurd hmem hn⟩
      constructor
      · intro hst
        rw [hpendStatus] at hst
        exact absurd (Option.some.inj hst) (by intro h; cases h)
      · intro hle
        exact absurd hle hq
  · have hnotmem : (sub.id, userId) ∉ db.approvals :=
      fun hc => hmem ((mem_approversOf db sub.id userId).2 hc)
    have hdb1 := add_approval_of_not_mem db sub.id userId hnotmem
    rw [hdb1, count_approvals_eq_numApprovers]
    have happrset := approversOf_append_self db sub.id userId
    have hnum : numApprovers
        { db with approvals := db.approvals ++ [(sub.id, userId)] } sub.id
        = numApprovers db sub.id + 1 := by
      unfold numApprovers
      rw [happrset, List.length_append]
      rfl
    have hnd2 : (approversOf
        { db with approvals := db.approvals ++ [(sub.id, userId)] } sub.id).Nodup := by
      rw [happrset]
      rw [List.nodup_append]
      exact ⟨hnd, List.nodup_singleton userId,
        fun a ha hb => by
          rw [List.mem_singleton] at hb
          subst hb
          exact hmem ha⟩
    by_cases hq : numApprovers
        { db with approvals := db.approvals ++ [(sub.id, userId)] } sub.id
        ≥ sub.approvalsRequired
    · rw [if_pos hq]
      have hfind2 : ({ db with approvals := db.approvals ++ [(sub.id, userId)] }
          : DB).submissions.find? (fun s => s.id == sub.id) = some sub := hfind
      have hset := subStatus_set_submission_status
        { db with approvals := db.approvals ++ [(sub.id, userId)] } sub
        SubStatus.approved hfind2
      refine ⟨?_, hnd2, fun hm => absurd hm hmem, fun _ => happrset⟩
      constructor
      · intro _
        exact hq
      · intro _
        exact hset
    · rw [if_neg hq]
      refine ⟨?_, hnd2, fun hm => absurd hm hmem, fun _ => happrset⟩
      constructor
      · intro hst
        have hps : subStatus
            { db with approvals := db.approvals ++ [(sub.id, userId)] } sub.id
            = some SubStatus.pending := hpendStatus
        rw [hps] at hst
        exact absurd (Option.some.inj hst) (by intro h; cases h)
      · intro hle
        exact absurd hle hq

/-- Claim C3: once a submission is approved, every further approval signal is
a no-op: the pending check precedes any insertion, so the store (approvals
rows and submission status alike) is unchanged and no announcement or
leaderboard action is emitted. -/
theorem approved_submission_latched (db : DB) (bingo : Bingo) (sub : Submission)
    (messageId userId : Nat) (member : Option Member) (emoji : Emoji)
    (hnotsignup : (bingo.signupMessageId == some messageId) = false)
    (hsub : get_submission_by_message db messageId = some sub)
    (happ : sub.status = SubStatus.approved) :
    reaction_add_core db bingo messageId userId emoji member = (db, []) := by
  unfold reaction_add_core
  rw [hnotsignup]
  simp only [Bool.false_eq_true, if_false]
  cases emoji <;> simp [hsub, happ]

/-- Claim C8: an approval signal from an actor without the
manage-guild/administrator capability is silently dropped under both the
admin policy and the reserved nonteammate policy (which is enforced by the
very same check): the store is unchanged and no action is emitted. -/
theorem unauthorized_approval_ignored (db : DB) (bingo : Bingo)
    (messageId userId : Nat) (member : Option Member)
    (hmode : bingo.approvalsMode = ApprovalsMode.admin
      ∨ bingo.approvalsMode = ApprovalsMode.nonteammate)
    (hcap : hasCap member = false) :
    reaction_add_core db bingo messageId userId Emoji.approve member = (db, [])
    ∧ (∀ mem : Option Member,
        allowed_approver ApprovalsMode.admin mem
          = allowed_approver ApprovalsMode.nonteammate mem) := by
  have hallow : allowed_approver bingo.approvalsMode member = false := by
    rcases hmode with h | h <;> simp [allowed_approver, h, hcap]
  refine ⟨?_, fun mem => rfl⟩
  unfold reaction_add_core
  by_cases hsg : (bingo.signupMessageId == some messageId) = true
  · simp [hsg]
  · simp only [Bool.not_eq_true] at hsg
    rw [hsg]
    simp only [Bool.false_eq_true, if_false, bne_self_eq_false]
    cases hs : get_submission_by_message db messageId with
    | none => simp
    | some sub =>
        by_cases hp : sub.status = SubStatus.pending <;> simp [hp, hallow]

/-- Claim C7: at creation a submission is stored approved with an immediate
leaderboard refresh under policy none, and stored pending under admin or the
reserved nonteammate policy with approvals_required copied from the event
row; the reaction handler is insensitive to the approvals_required stored on
the event row, so the later quorum check can only use the snapshot on the
submission row. -/
theorem submission_creation_policy_snapshot (db : DB) (bingo : Bingo)
    (userId : Nat) (kind : Kind) (messageId newSubId : Nat) :
    (bingo.approvalsMode = ApprovalsMode.none →
      (handle_submission db bingo userId kind messageId newSubId).1.submissions
          = db.submissions ++
            [{ id := newSubId, bingoId := bingo.id, userId := userId,
               kind := kind, messageId := messageId,
               status := SubStatus.approved,
               approvalsRequired := bingo.approvalsRequired }]
        ∧ (handle_submission db bingo userId kind messageId newSubId).2
            = [Action.updateLeaderboard bingo.id])
    ∧ ((bingo.approvalsMode = ApprovalsMode.admin
          ∨ bingo.approvalsMode = ApprovalsMode.nonteammate) →
      (handle_submission db bingo userId kind messageId newSubId).1.submissions
          = db.submissions ++
            [{ id := newSubId, bingoId := bingo.id, userId := userId,
               kind := kind, messageId := messageId,
               status := SubStatus.pending,
               approvalsRequired := bingo.approvalsRequired }]
        ∧ (handle_submission db bingo userId kind messageId newSubId).2
            = [Action.notifyPending bingo.id])
    ∧ (∀ (r : Nat) (m u : Nat) (e : Emoji) (mem : Option Member),
        reaction_add_core db { bingo with approvalsRequired := r } m u e mem
          = reaction_add_core db bingo m u e mem) := by
  refine ⟨?_, ?_, ?_⟩
  · intro h
    simp [handle_submission, create_submission, h]
  · intro h
    have hne : bingo.approvalsMode ≠ ApprovalsMode.none := by
      rcases h with h | h <;> simp [h]
    simp [handle_submission, create_submission, hne]
  · intro r m u e mem
    rfl

/-! ## Lifecycle engine lemmas -/

theorem bingos_clear_teams (db : DB) (i : Nat) :
    (clear_teams db i).bingos = db.bingos := rfl

theorem bingos_set_team (db : DB) (i u t : Nat) :
    (set_team db i u t).bingos = db.bingos := by
  unfold set_team
  split <;> rfl

theorem bingos_foldl_set_team (l : List (Nat × Nat)) (db : DB) (i : Nat) :
    (l.foldl (fun d p => set_team d i p.1 p.2) db).bingos = db.bingos := by
  induction l generalizing db with
  | nil => rfl
  | cons p rest ih => rw [List.foldl_cons, ih, bingos_set_team]

theorem find?_bingos_set_status (db : DB) (i : Nat) (st : Status) (b : Bingo)
    (h : db.bingos.find? (fun x => x.id == i) = some b) :
    (set_status db i st).bingos.find? (fun x => x.id == i)
      = some { b with status := st } := by
  unfold set_status
  rw [List.find?_map]
  have hp : ((fun x : Bingo => x.id == i) ∘
      (fun x => if x.id == i then { x with status := st } else x))
      = (fun x : Bingo => x.id == i) := by
    funext a
    simp only [Function.comp_apply]
    split <;> rfl
  rw [hp, h]
  have hb := List.find?_some h
  show some (if (b.id == i) = true then { b with status := st } else b)
      = some { b with status := st }
  rw [if_pos hb]

theorem bingoStatus_eq_of_bingos_eq {db db' : DB} (h : db'.bingos = db.bingos)
    (i : Nat) : bingoStatus db' i = bingoStatus db i := by
  unfold bingoStatus
  rw [h]

theorem bingoStatus_set_status_ne (db : DB) (j : Nat) (st : Status) (i : Nat)
    (hst : st ≠ Status.ended)
    (h : bingoStatus db i ≠ some Status.ended) :
    bingoStatus (set_status db j st) i ≠ some Status.ended := by
  unfold bingoStatus set_status at *
  rw [List.find?_map]
  have hp : ((fun x : Bingo => x.id == i) ∘
      (fun x => if x.id == j then { x with status := st } else x))
      = (fun x : Bingo => x.id == i) := by
    funext a
    simp only [Function.comp_apply]
    split <;> rfl
  rw [hp]
  cases hf : db.bingos.find? (fun x => x.id == i) with
  | none => simp
  | some b =>
      rw [hf] at h
      have hbs : b.status ≠ Status.ended := by simpa using h
      intro hc
      have hc' := Option.some.inj
        (hc : some (if (b.id == j) = true then { b with status := st }
            else b).status = some Status.ended)
      simp only [] at hc'
      by_cases hbj : (b.id == j) = true
      · rw [if_pos hbj] at hc'
        exact hst hc'
      · rw [if_neg hbj] at hc'
        exact hbs hc'

theorem handle_bingo_state_running (db : DB) (b : Bingo) (now : Int)
    (sh : List Nat → List Nat) (gf : Bool) (hst : b.status = Status.running) :
    handle_bingo_state db b now sh gf = (db, []) := by
  unfold handle_bingo_state
  cases gf with
  | false => rfl
  | true =>
      cases hgs : get_guild_settings db b.guildId with
      | none => rfl
      | some g =>
          have h1 : (Status.running == Status.signup_open) = false := rfl
          have h2 : (Status.running == Status.signup_closed) = false := rfl
          simp [hst, h1, h2]

theorem mem_ite_list {α : Type} {c : Prop} [Decidable c] {a : α}
    {l l' : List α} (h : a ∈ (if c then l else l')) : a ∈ l ∨ a ∈ l' := by
  split at h
  · exact Or.inl h
  · exact Or.inr h

theorem rescan_emits_no_close_actions (db : DB) (b : Bingo) (now : Int)
    (sh : List Nat → List Nat) (gf : Bool)
    (hst : b.status ≠ Status.signup_open) :
    ∀ a ∈ (handle_bingo_state db b now sh gf).2,
      isCloseAction a = false
      ∧ (b.showBoardWhen = ShowBoardWhen.signups_close →
          a ≠ Action.revealBoard b.id) := by
  unfold handle_bingo_state
  cases gf with
  | false => intro a ha; simp at ha
  | true =>
      cases hgs : get_guild_settings db b.guildId with
      | none => intro a ha; simp at ha
      | some g =>
          have h1 : (b.status == Status.signup_open) = false := by
            simp [hst]
          by_cases h3 : (b.showBoardWhen == ShowBoardWhen.bingo_start) = true
          · simp only [h1, Bool.not_true, Bool.false_and, Bool.false_eq_true,
              if_false, Bool.false_or, h3, if_true]
            intro a ha
            split at ha
            · simp only [List.nil_append, List.mem_append, List.mem_cons,
                List.not_mem_nil, or_false, List.mem_singleton] at ha
              rcases ha with (ha | ha) | ha
              · subst ha
                exact ⟨rfl, fun _ h => by cases h⟩
              · subst ha
                exact ⟨rfl, fun _ h => by cases h⟩
              · subst ha
                refine ⟨rfl, fun hshow _ => ?_⟩
                rw [hshow] at h3
                cases h3
            · simp at ha
          · simp only [Bool.not_eq_true] at h3
            simp only [h1, Bool.not_true, Bool.false_and, Bool.false_eq_true,
              if_false, Bool.false_or, h3]
            intro a ha
            split at ha
            · simp only [List.nil_append, List.append_nil, List.mem_append,
                List.mem_cons, List.not_mem_nil, or_false,
                List.mem_singleton] at ha
              rcases ha with ha | ha
              · subst ha
                exact ⟨rfl, fun _ h => by cases h⟩
              · subst ha
                exact ⟨rfl, fun _ h => by cases h⟩
            · simp at ha

theorem handle_close_committed_row (db : DB) (b : Bingo) (now : Int)
    (sh : List Nat → List Nat) (g : GuildSettings)
    (hrow : db.bingos.find? (fun x => x.id == b.id) = some b)
    (hgs : get_guild_settings db b.guildId = some g)
    (hst : b.status = Status.signup_open) (hdue : b.signupCloseUtc ≤ now) :
    (handle_bingo_state db b now sh true).2.head?
        = some (Action.setStatus b.id Status.signup_closed)
    ∧ ∀ b2, (handle_bingo_state db b now sh true).1.bingos.find?
          (fun x => x.id == b.id) = some b2 →
        b2.status ≠ Status.signup_open ∧ b2.showBoardWhen = b.showBoardWhen
          ∧ b2.id = b.id := by
  unfold handle_bingo_state
  rw [hgs]
  have h1 : (b.status == Status.signup_open) = true := by simp [hst]
  have hdec : decide (b.signupCloseUtc ≤ now) = true := by simp [hdue]
  simp only [Bool.not_true, Bool.false_eq_true, if_false, h1, hdec,
    Bool.and_self, if_true, Bool.true_or, Bool.true_and]
  have hb1 : (set_status db b.id Status.signup_closed).bingos.find?
      (fun x => x.id == b.id) = some { b with status := Status.signup_closed } :=
    find?_bingos_set_status db b.id Status.signup_closed b hrow
  by_cases h2 : b.startUtc ≤ now
  · have hdec2 : decide (b.startUtc ≤ now) = true := by simp [h2]
    rw [hdec2]
    simp only [if_true]
    constructor
    · rfl
    · intro b2 hb2
      have hdbc : ((assignTeams (sh (list_signups
            (set_status db b.id Status.signup_closed) b.id)) b.teamSize).foldl
            (fun d p => set_team d b.id p.1 p.2)
            (clear_teams (set_status db b.id Status.signup_closed) b.id)).bingos.find?
            (fun x => x.id == b.id)
          = some { b with status := Status.signup_closed } := by
        rw [bingos_foldl_set_team]
        exact hb1
      have hfinal := find?_bingos_set_status _ b.id Status.running _ hdbc
      rw [hfinal] at hb2
      have hb2' := Option.some.inj hb2
      subst hb2'
      exact ⟨by simp, rfl, rfl⟩
  · have hdec2 : decide (b.startUtc ≤ now) = false := by simp [h2]
    rw [hdec2]
    simp only [Bool.false_eq_true, if_false]
    constructor
    · rfl
    · intro b2 hb2
      have hdbc : ((assignTeams (sh (list_signups
            (set_status db b.id Status.signup_closed) b.id)) b.teamSize).foldl
            (fun d p => set_team d b.id p.1 p.2)
            (clear_teams (set_status db b.id Status.signup_closed) b.id)).bingos.find?
            (fun x => x.id == b.id)
          = some { b with status := Status.signup_closed } := by
        rw [bingos_foldl_set_team]
        exact hb1
      rw [hdbc] at hb2
      have hb2' := Option.some.inj hb2
      subst hb2'
      exact ⟨by simp, rfl, rfl⟩

/-- Claim C2: when a scan takes the signup_open to signup_closed transition,
the status write is the very first action of the trace, ahead of team
creation, announcements, board reveal and leaderboard refresh; and a second
scan that reads the committed row can neither take the transition again nor
emit any of its side effects. -/
theorem signup_close_transition_once (db : DB) (b : Bingo) (now now2 : Int)
    (sh sh2 : List Nat → List Nat) (gf2 : Bool) (g : GuildSettings)
    (hrow : db.bingos.find? (fun x => x.id == b.id) = some b)
    (hgs : get_guild_settings db b.guildId = some g)
    (hst : b.status = Status.signup_open) (hdue : b.signupCloseUtc ≤ now) :
    (handle_bingo_state db b now sh true).2.head?
        = some (Action.setStatus b.id Status.signup_closed)
    ∧ (∀ b2, (handle_bingo_state db b now sh true).1.bingos.find?
          (fun x => x.id == b.id) = some b2 →
        ∀ a ∈ (handle_bingo_state (handle_bingo_state db b now sh true).1
            b2 now2 sh2 gf2).2,
          isCloseAction a = false
          ∧ (b.showBoardWhen = ShowBoardWhen.signups_close →
              a ≠ Action.revealBoard b.id)) := by
  obtain ⟨hhead, hrow2⟩ :=
    handle_close_committed_row db b now sh g hrow hgs hst hdue
  refine ⟨hhead, ?_⟩
  intro b2 hb2 a ha
  obtain ⟨hb2st, hb2show, hb2id⟩ := hrow2 b2 hb2
  have hres := rescan_emits_no_close_actions
    (handle_bingo_state db b now sh true).1 b2 now2 sh2 gf2 hb2st a ha
  refine ⟨hres.1, fun hshow => ?_⟩
  rw [← hb2id]
  exact hres.2 (by rw [hb2show, hshow])

theorem bingoStatus_foldl_set_team (l : List (Nat × Nat)) (db : DB)
    (j i : Nat) :
    bingoStatus (l.foldl (fun d p => set_team d j p.1 p.2) db) i
      = bingoStatus db i := by
  unfold bingoStatus
  rw [bingos_foldl_set_team]

/-- Claim C9: the scan path only ever writes the statuses signup_closed and
running, never ended; it reads nothing from end_utc; a running event is left
untouched by a scan, and stays running under any sequence of further scans
over its committed row; and no scan can turn a non-ended stored status into
ended. -/
theorem engine_never_reaches_ended (db : DB) (b : Bingo) (now : Int)
    (sh : List Nat → List Nat) (gf : Bool) :
    (∀ a ∈ (handle_bingo_state db b now sh gf).2, ∀ i st,
        a = Action.setStatus i st →
          st = Status.signup_closed ∨ st = Status.running)
    ∧ (∀ e : Option Int,
        handle_bingo_state db { b with endUtc := e } now sh gf
          = handle_bingo_state db b now sh gf)
    ∧ (b.status = Status.running →
        handle_bingo_state db b now sh gf = (db, []))
    ∧ (∀ i, bingoStatus db i ≠ some Status.ended →
        bingoStatus (handle_bingo_state db b now sh gf).1 i
          ≠ some Status.ended)
    ∧ (∀ steps : List Int,
        db.bingos.find? (fun x => x.id == b.id) = some b →
        b.status = Status.running →
        (scanIter db b.id steps sh gf).bingos.find? (fun x => x.id == b.id)
          = some b) := by
  refine ⟨?_, fun e => rfl, handle_bingo_state_running db b now sh gf,
    ?_, ?_⟩
  · intro a ha i st h
    subst h
    unfold handle_bingo_state at ha
    cases gf with
    | false => simp at ha
    | true =>
        rcases hgs : get_guild_settings db b.guildId with _ | g
        · rw [hgs] at ha
          simp at ha
        · rw [hgs] at ha
          by_cases h1 : (b.status == Status.signup_open &&
              decide (b.signupCloseUtc ≤ now)) = true <;>
            by_cases h2 : ((b.status == Status.signup_open ||
                b.status == Status.signup_closed) &&
                decide (b.startUtc ≤ now)) = true <;>
            by_cases h3 : (b.showBoardWhen == ShowBoardWhen.signups_close)
                = true <;>
            by_cases h4 : (b.showBoardWhen == ShowBoardWhen.bingo_start)
                = true <;>
            simp [h1, h2, h3, h4] at ha <;>
            tauto
  · intro i hnend
    unfold handle_bingo_state
    cases gf with
    | false => simpa using hnend
    | true =>
        cases hgs : get_guild_settings db b.guildId with
        | none => simpa using hnend
        | some g =>
            simp only [Bool.not_true, Bool.false_eq_true, if_false]
            split
            · split
              · apply bingoStatus_set_status_ne _ _ _ _
                  (by intro hc; cases hc)
                rw [bingoStatus_foldl_set_team]
                exact bingoStatus_set_status_ne db b.id Status.signup_closed i
                  (by intro hc; cases hc) hnend
              · exact bingoStatus_set_status_ne db b.id Status.running i
                  (by intro hc; cases hc) hnend
            · split
              · rw [bingoStatus_foldl_set_team]
                exact bingoStatus_set_status_ne db b.id Status.signup_closed i
                  (by intro hc; cases hc) hnend
              · exact hnend
  · intro steps hrow hrun
    induction steps generalizing db with
    | nil => exact hrow
    | cons n rest ih =>
        unfold scanIter
        rw [List.foldl_cons, hrow]
        simp only [handle_bingo_state_running db b n sh gf hrun]
        exact ih db hrow

theorem get_active_single (db : DB) (b : Bingo) (g : Nat)
    (hb : db.bingos = [b]) (hg : b.guildId = g)
    (hact : isActive b.status = true) :
    get_active_bingo db g = some b := by
  unfold get_active_bingo
  rw [hb]
  simp [hg, hact]

theorem teams_add_signup (db : DB) (i u : Nat) :
    (add_signup db i u).teams = db.teams := by
  unfold add_signup
  split <;> rfl

theorem not_mem_filter_pair (l : List (Nat × Nat)) (x y : Nat) :
    (x, y) ∉ l.filter (fun p => !(p.1 == x && p.2 == y)) := by
  intro hc
  rw [List.mem_filter] at hc
  simp at hc

/-- Claim C10: while the event is signup_closed or running (still
non-terminal), a join reaction on the signup post still inserts a Signup
row for a user not yet signed up, and a leave reaction (either the explicit
leave emoji or removing the join emoji) still deletes the Signup row of any
user, who afterwards no longer holds one — the roster mutation is gated
only on get_active_bingo, whose non-terminal status set admits both
states — and none of these late mutations touches the teams table. -/
theorem late_roster_mutation (db : DB) (b : Bingo) (g m u : Nat)
    (gset : GuildSettings) (mem : Option Member)
    (hb : db.bingos = [b]) (hg : b.guildId = g)
    (hst : b.status = Status.signup_closed ∨ b.status = Status.running)
    (hmsg : b.signupMessageId = some m)
    (hgs : get_guild_settings db g = some gset) :
    get_active_bingo db g = some b
    ∧ ((b.id, u) ∉ db.signups →
        (on_raw_reaction_add db g m u Emoji.signup mem true).1.signups
          = db.signups ++ [(b.id, u)])
    ∧ (on_raw_reaction_add db g m u Emoji.signup mem true).1.teams = db.teams
    ∧ (on_raw_reaction_add db g m u Emoji.unsign mem true).1.signups
        = db.signups.filter (fun p => !(p.1 == b.id && p.2 == u))
    ∧ (b.id, u) ∉
        (on_raw_reaction_add db g m u Emoji.unsign mem true).1.signups
    ∧ (on_raw_reaction_add db g m u Emoji.unsign mem true).1.teams = db.teams
    ∧ (on_raw_reaction_remove db g m u Emoji.signup true).1.signups
        = db.signups.filter (fun p => !(p.1 == b.id && p.2 == u))
    ∧ (b.id, u) ∉
        (on_raw_reaction_remove db g m u Emoji.signup true).1.signups
    ∧ (on_raw_reaction_remove db g m u Emoji.signup true).1.teams
        = db.teams := by
  have hact : isActive b.status = true := by
    rcases hst with h | h <;> simp [isActive, h]
  have hactive := get_active_single db b g hb hg hact
  have hunsign : (on_raw_reaction_add db g m u Emoji.unsign mem true).1.signups
      = db.signups.filter (fun p => !(p.1 == b.id && p.2 == u)) := by
    unfold on_raw_reaction_add
    rw [hgs, hactive]
    unfold reaction_add_core
    simp only [hmsg, Bool.not_true, Bool.false_eq_true, if_false,
      beq_self_eq_true, if_true]
    rfl
  have hremove : (on_raw_reaction_remove db g m u Emoji.signup true).1.signups
      = db.signups.filter (fun p => !(p.1 == b.id && p.2 == u)) := by
    unfold on_raw_reaction_remove
    rw [hactive]
    simp only [hmsg, Bool.not_true, Bool.false_eq_true, if_false,
      beq_self_eq_true, Bool.and_self, if_true]
    rfl
  refine ⟨hactive, ?_, ?_, hunsign, ?_, ?_, hremove, ?_, ?_⟩
  · intro hnotin
    have hany : db.signups.any (fun p => p.1 == b.id && p.2 == u) = false := by
      rw [Bool.eq_false_iff]
      intro hc
      exact hnotin ((any_pair_iff_mem _ _ _).1 hc)
    have hadd : add_signup db b.id u
        = { db with signups := db.signups ++ [(b.id, u)] } := by
      unfold add_signup
      rw [hany]
      simp
    unfold on_raw_reaction_add
    rw [hgs, hactive]
    unfold reaction_add_core
    simp only [hmsg, Bool.not_true, Bool.false_eq_true, if_false,
      beq_self_eq_true, if_true]
    rw [hadd]
  · unfold on_raw_reaction_add
    rw [hgs, hactive]
    unfold reaction_add_core
    simp only [hmsg, Bool.not_true, Bool.false_eq_true, if_false,
      beq_self_eq_true, if_true]
    exact teams_add_signup db b.id u
  · rw [hunsign]
    exact not_mem_filter_pair db.signups b.id u
  · unfold on_raw_reaction_add
    rw [hgs, hactive]
    unfold reaction_add_core
    simp only [hmsg, Bool.not_true, Bool.false_eq_true, if_false,
      beq_self_eq_true, if_true]
    rfl
  · rw [hremove]
    exact not_mem_filter_pair db.signups b.id u
  · unfold on_raw_reaction_remove
    rw [hactive]
    simp only [hmsg, Bool.not_true, Bool.false_eq_true, if_false,
      beq_self_eq_true, Bool.and_self, if_true]
    rfl

/-- Claim C6: the leaderboard yields one pair per team with at least one
approved full_tile submission by one of its members (the pair count being
the number of joined rows for that team), strictly sorted by count
descending with ties broken by ascending team number; progress-kind or
non-approved submissions never change the result. -/
theorem leaderboard_ordering_spec (db : DB) (bingoId : Nat) :
    (leaderboard_counts db bingoId).Pairwise
        (fun a b => b.2 < a.2 ∨ (a.2 = b.2 ∧ a.1 < b.1))
    ∧ (∀ tn c : Nat, (tn, c) ∈ leaderboard_counts db bingoId ↔
        0 < c ∧ c = (joined_team_numbers db bingoId).count tn)
    ∧ (∀ s : Submission,
        s.kind = Kind.progress ∨ s.status ≠ SubStatus.approved →
        leaderboard_counts { db with submissions := db.submissions ++ [s] }
          bingoId = leaderboard_counts db bingoId) := by
  have hperm := List.perm_insertionSort lbRel
    ((joined_team_numbers db bingoId).dedup.map
      (fun tn => (tn, (joined_team_numbers db bingoId).count tn)))
  have hsorted := List.sorted_insertionSort lbRel
    ((joined_team_numbers db bingoId).dedup.map
      (fun tn => (tn, (joined_team_numbers db bingoId).count tn)))
  have hunfold : leaderboard_counts db bingoId
      = List.insertionSort lbRel
          ((joined_team_numbers db bingoId).dedup.map
            (fun tn => (tn, (joined_team_numbers db bingoId).count tn))) := rfl
  refine ⟨?_, ?_, ?_⟩
  · have hfst : ((leaderboard_counts db bingoId).map Prod.fst).Nodup := by
      have hmap : ((joined_team_numbers db bingoId).dedup.map
          (fun tn => (tn, (joined_team_numbers db bingoId).count tn))).map
            Prod.fst = (joined_team_numbers db bingoId).dedup := by
        rw [List.map_map]
        exact List.map_id _
      have hpm := hperm.map Prod.fst
      rw [hmap] at hpm
      rw [hunfold]
      exact hpm.symm.nodup (List.nodup_dedup _)
    have hne : (leaderboard_counts db bingoId).Pairwise
        (fun a b : Nat × Nat => a.1 ≠ b.1) :=
      List.pairwise_map.mp hfst
    exact ((hsorted.and hne).imp
      (fun {a b} h => by
        rcases h with ⟨hr, hneq⟩
        rcases hr with hlt | ⟨heq, hle⟩
        · exact Or.inl hlt
        · exact Or.inr ⟨heq, lt_of_le_of_ne hle hneq⟩))
  · intro tn c
    rw [hunfold, hperm.mem_iff]
    simp only [List.mem_map, List.mem_dedup]
    constructor
    · rintro ⟨t, ht, heq⟩
      injection heq with h1 h2
      subst h1
      subst h2
      exact ⟨List.count_pos_iff.2 ht, rfl⟩
    · rintro ⟨hpos, rfl⟩
      exact ⟨tn, List.count_pos_iff.1 hpos, rfl⟩
  · intro s hs
    have hfs : List.filter
        (fun s' : Submission => s'.bingoId == bingoId &&
          s'.status == SubStatus.approved && s'.kind == Kind.full_tile)
        [s] = [] := by
      simp only [List.filter_cons, List.filter_nil]
      rcases hs with h | h
      · simp [h]
      · have hb : (s.status == SubStatus.approved) = false := by
          simp [h]
        simp [hb]
    have hj : joined_team_numbers
        { db with submissions := db.submissions ++ [s] } bingoId
        = joined_team_numbers db bingoId := by
      unfold joined_team_numbers
      rw [List.filter_append, hfs, List.append_nil]
    unfold leaderboard_counts
    rw [hj]

/-! ## Witnesses at concrete inputs -/

/-- Witness for claim C1: one admin approval on a pending submission with
quorum 1 flips it to approved. -/
theorem quorum_distinct_approvers_witness :
    (bingoW1.signupMessageId == some 300) = false
    ∧ get_submission_by_message dbW1 300 = some subW1
    ∧ dbW1.submissions.find? (fun s => s.id == subW1.id) = some subW1
    ∧ subW1.status = SubStatus.pending
    ∧ allowed_approver bingoW1.approvalsMode (some ⟨true, false⟩) = true
    ∧ (approversOf dbW1 subW1.id).Nodup
    ∧ ((subStatus (reaction_add_core dbW1 bingoW1 300 42 Emoji.approve
          (some ⟨true, false⟩)).1 subW1.id = some SubStatus.approved
        ↔ subW1.approvalsRequired ≤ numApprovers
            (reaction_add_core dbW1 bingoW1 300 42 Emoji.approve
              (some ⟨true, false⟩)).1 subW1.id)
      ∧ (approversOf (reaction_add_core dbW1 bingoW1 300 42 Emoji.approve
            (some ⟨true, false⟩)).1 subW1.id).Nodup
      ∧ (42 ∈ approversOf dbW1 subW1.id →
          (reaction_add_core dbW1 bingoW1 300 42 Emoji.approve
            (some ⟨true, false⟩)).1.approvals = dbW1.approvals)
      ∧ (42 ∉ approversOf dbW1 subW1.id →
          approversOf (reaction_add_core dbW1 bingoW1 300 42 Emoji.approve
            (some ⟨true, false⟩)).1 subW1.id
            = approversOf dbW1 subW1.id ++ [42])) :=
  ⟨by decide, by decide, by decide, rfl, rfl, by decide,
    quorum_distinct_approvers dbW1 bingoW1 subW1 300 42 (some ⟨true, false⟩)
      (by decide) (by decide) (by decide) rfl rfl (by decide)⟩

/-- Witness for claim C2: one event scanned at time 20 and rescanned at
time 25, both past its signup deadline of 10. -/
theorem signup_close_transition_once_witness :
    dbW2.bingos.find? (fun x => x.id == bingoW2.id) = some bingoW2
    ∧ get_guild_settings dbW2 bingoW2.guildId = some ⟨6, 1, 2, 3, 4⟩
    ∧ bingoW2.status = Status.signup_open
    ∧ bingoW2.signupCloseUtc ≤ 20
    ∧ ((handle_bingo_state dbW2 bingoW2 20 id true).2.head?
          = some (Action.setStatus bingoW2.id Status.signup_closed)
      ∧ (∀ b2, (handle_bingo_state dbW2 bingoW2 20 id true).1.bingos.find?
            (fun x => x.id == bingoW2.id) = some b2 →
          ∀ a ∈ (handle_bingo_state
              (handle_bingo_state dbW2 bingoW2 20 id true).1
              b2 25 id true).2,
            isCloseAction a = false
            ∧ (bingoW2.showBoardWhen = ShowBoardWhen.signups_close →
                a ≠ Action.revealBoard bingoW2.id))) :=
  ⟨by decide, by decide, rfl, by decide,
    signup_close_transition_once dbW2 bingoW2 20 25 id id true
      ⟨6, 1, 2, 3, 4⟩ (by decide) (by decide) rfl (by decide)⟩

/-- Witness for claim C3: an approval signal on an already approved
submission leaves the store untouched and emits nothing. -/
theorem approved_submission_latched_witness :
    (bingoW1.signupMessageId == some 301) = false
    ∧ get_submission_by_message dbW3 301 = some subW3
    ∧ subW3.status = SubStatus.approved
    ∧ reaction_add_core dbW3 bingoW1 301 77 Emoji.approve Option.none
        = (dbW3, []) :=
  ⟨by decide, by decide, rfl,
    approved_submission_latched dbW3 bingoW1 subW3 301 77 Option.none
      Emoji.approve (by decide) (by decide) rfl⟩

/-- Witness for claim C4: five participants with team size 2 give teams
of sizes 2, 2 and 1. -/
theorem teamAssign_chunking_witness :
    2 ≤ 2 ∧ ([10, 20, 30, 40, 50] : List Nat).Nodup
    ∧ ((assignTeams [10, 20, 30, 40, 50] ((2 : Nat) : Int)).map Prod.fst
          = [10, 20, 30, 40, 50]
      ∧ (∀ k : Nat, (assignTeams [10, 20, 30, 40, 50] ((2 : Nat) : Int))[k]?
          = ([10, 20, 30, 40, 50] : List Nat)[k]?.map
              (fun uid => (uid, k / 2 + 1)))
      ∧ (∀ u ∈ ([10, 20, 30, 40, 50] : List Nat),
          ((assignTeams [10, 20, 30, 40, 50] ((2 : Nat) : Int)).filter
            (fun p => p.1 == u)).length = 1)
      ∧ (∀ t : Nat,
          0 < teamCount
              (assignTeams [10, 20, 30, 40, 50] ((2 : Nat) : Int)) t
            ↔ 1 ≤ t
              ∧ t ≤ numTeams ([10, 20, 30, 40, 50] : List Nat).length 2)
      ∧ (∀ t : Nat, 1 ≤ t →
          t < numTeams ([10, 20, 30, 40, 50] : List Nat).length 2 →
          teamCount (assignTeams [10, 20, 30, 40, 50] ((2 : Nat) : Int)) t
            = 2)
      ∧ (0 < ([10, 20, 30, 40, 50] : List Nat).length →
          teamCount (assignTeams [10, 20, 30, 40, 50] ((2 : Nat) : Int))
              (numTeams ([10, 20, 30, 40, 50] : List Nat).length 2)
            = ([10, 20, 30, 40, 50] : List Nat).length
              - (numTeams ([10, 20, 30, 40, 50] : List Nat).length 2 - 1)
                * 2)) :=
  ⟨by decide, by decide,
    teamAssign_chunking [10, 20, 30, 40, 50] 2 (by decide) (by decide)⟩

/-- Witness for claim C8: a capability-less member reacting with the approve
emoji changes nothing and receives nothing. -/
theorem unauthorized_approval_ignored_witness :
    (bingoW1.approvalsMode = ApprovalsMode.admin
      ∨ bingoW1.approvalsMode = ApprovalsMode.nonteammate)
    ∧ hasCap (some ⟨false, false⟩) = false
    ∧ (reaction_add_core dbW1 bingoW1 300 42 Emoji.approve
          (some ⟨false, false⟩) = (dbW1, [])
      ∧ (∀ mem : Option Member,
          allowed_approver ApprovalsMode.admin mem
            = allowed_approver ApprovalsMode.nonteammate mem)) :=
  ⟨Or.inl rfl, rfl,
    unauthorized_approval_ignored dbW1 bingoW1 300 42 (some ⟨false, false⟩)
      (Or.inl rfl) rfl⟩

/-- Witness for claim C10: on a signup_closed event, user 31, who holds a
Signup row, loses it through the leave reaction and through removing the
join reaction while the teams table survives; and the join reaction still
appends a row for the not yet signed-up user 77. -/
theorem late_roster_mutation_witness :
    dbW10.bingos = [bingoW10]
    ∧ bingoW10.guildId = 9
    ∧ (bingoW10.status = Status.signup_closed
        ∨ bingoW10.status = Status.running)
    ∧ bingoW10.signupMessageId = some 60
    ∧ get_guild_settings dbW10 9 = some ⟨9, 1, 2, 3, 4⟩
    ∧ (bingoW10.id, 31) ∈ dbW10.signups
    ∧ (get_active_bingo dbW10 9 = some bingoW10
      ∧ ((bingoW10.id, 31) ∉ dbW10.signups →
          (on_raw_reaction_add dbW10 9 60 31 Emoji.signup Option.none
            true).1.signups = dbW10.signups ++ [(bingoW10.id, 31)])
      ∧ (on_raw_reaction_add dbW10 9 60 31 Emoji.signup Option.none
            true).1.teams = dbW10.teams
      ∧ (on_raw_reaction_add dbW10 9 60 31 Emoji.unsign Option.none
            true).1.signups
          = dbW10.signups.filter
              (fun p => !(p.1 == bingoW10.id && p.2 == 31))
      ∧ (bingoW10.id, 31) ∉ (on_raw_reaction_add dbW10 9 60 31 Emoji.unsign
            Option.none true).1.signups
      ∧ (on_raw_reaction_add dbW10 9 60 31 Emoji.unsign Option.none
            true).1.teams = dbW10.teams
      ∧ (on_raw_reaction_remove dbW10 9 60 31 Emoji.signup true).1.signups
          = dbW10.signups.filter
              (fun p => !(p.1 == bingoW10.id && p.2 == 31))
      ∧ (bingoW10.id, 31) ∉ (on_raw_reaction_remove dbW10 9 60 31
            Emoji.signup true).1.signups
      ∧ (on_raw_reaction_remove dbW10 9 60 31 Emoji.signup true).1.teams
          = dbW10.teams)
    ∧ ((bingoW10.id, 77) ∉ dbW10.signups
      ∧ ((bingoW10.id, 77) ∉ dbW10.signups →
          (on_raw_reaction_add dbW10 9 60 77 Emoji.signup Option.none
            true).1.signups = dbW10.signups ++ [(bingoW10.id, 77)])) :=
  ⟨rfl, rfl, Or.inl rfl, rfl, by decide, by decide,
    late_roster_mutation dbW10 bingoW10 9 60 31 ⟨9, 1, 2, 3, 4⟩ Option.none
      rfl rfl (Or.inl rfl) rfl (by decide),
    by decide,
    (late_roster_mutation dbW10 bingoW10 9 60 77 ⟨9, 1, 2, 3, 4⟩ Option.none
      rfl rfl (Or.inl rfl) rfl (by decide)).2.1⟩

end BingoBot
